import Mathlib

/-!
Verification of the memory storage and retrieval component of the
Pippa Memory tool (`mcp_pippa_memory/memory.py`, `mcp_pippa_memory/config.py`).

The component wraps a ChromaDB collection (external library) and an OpenAI
embedding endpoint (external provider).  The shallow embedding below models:

* the persisted collection as a list of records in insertion order
  (`ChromaCollection`), together with the ChromaDB operations the source
  calls (`add`, `get`, `query`, `delete`), modelled from ChromaDB's
  documented semantics — in particular `delete` silently ignores ids that
  are not present, and `add` ignores a record whose id already exists;
* the embedding provider as a function `String → Except String Embedding`:
  `Except.error` models the provider raising an exception;
* the similarity metric as an abstract parameter
  `dist : Embedding → Embedding → ℚ`.  The source configures the collection
  with metadata hnsw:space = "cosine" (memory.py lines 75-78), so ChromaDB
  orders query results by ascending cosine distance; true cosine distance
  is irrational in general, so the model quantifies over the metric and
  proves the ordering properties for every metric, hence for cosine;
* possible exceptions raised by ChromaDB itself inside a try/except block
  as an explicit `fault : Option String` parameter (`none` = the library
  call returns normally, `some e` = it raises with message `e`);
* console output (`print`) as an explicit list of emitted lines returned
  alongside the result.
-/

namespace PippaMemory

/-- An embedding vector.  The source stores the float vector returned by the
OpenAI API; the model uses rationals so that comparisons are decidable. -/
abbrev Embedding := List ℚ

/-- The embedding provider (`PippaMemoryTool._get_embedding`, memory.py 83-89):
given a text it either returns a vector or raises (`Except.error`). -/
abbrev EmbedProvider := String → Except String Embedding

/-- The metadata dict stored with each record
(memory.py 111-115: timestamp, type, id). -/
structure Metadata where
  timestamp : String
  type : String
  id : String
deriving Repr, DecidableEq

/-- One record of the ChromaDB collection: id, document text, embedding and
metadata, exactly the four parallel arrays passed to `collection.add`
(memory.py 108-117). -/
structure MemoryRecord where
  id : String
  document : String
  embedding : Embedding
  metadata : Metadata
deriving Repr, DecidableEq

/-- The persisted ChromaDB collection, records kept in insertion order. -/
structure ChromaCollection where
  records : List MemoryRecord
deriving Repr, DecidableEq

/-- A freshly created (empty) collection. -/
def emptyCollection : ChromaCollection := ⟨[]⟩

/-- The ids currently present in the collection. -/
def ChromaCollection.ids (c : ChromaCollection) : List String :=
  c.records.map (·.id)

/-- ChromaDB `collection.add` with a single record (memory.py 108-117).
ChromaDB ignores an `add` whose id already exists in the collection
(it never overwrites); otherwise the record is appended. -/
def chromaAdd (c : ChromaCollection) (r : MemoryRecord) : ChromaCollection :=
  if r.id ∈ c.ids then c else ⟨c.records ++ [r]⟩

/-- ChromaDB `collection.get(limit=limit)` (memory.py 176): returns up to
`limit` records in the collection's stable storage order, modelled as
insertion order. -/
def chromaGet (c : ChromaCollection) (limit : Nat) : List MemoryRecord :=
  c.records.take limit

/-- ChromaDB `collection.delete(ids=ids)` (memory.py 205): removes every
record whose id is listed; ids that are not present are silently ignored
(ChromaDB raises no error for an absent id). -/
def chromaDelete (c : ChromaCollection) (ids : List String) : ChromaCollection :=
  ⟨c.records.filter (fun r => decide (r.id ∉ ids))⟩

/-- Insert `x` into a list sorted by `key`, before the first element of
strictly larger key, so that elements of equal key keep their original
relative order (a stable insertion). -/
def insertByDist (key : α → ℚ) (x : α) : List α → List α
  | [] => [x]
  | y :: ys => if key y < key x then y :: insertByDist key x ys else x :: y :: ys

/-- Stable insertion sort by ascending `key`. -/
def sortByDist (key : α → ℚ) : List α → List α
  | [] => []
  | x :: xs => insertByDist key x (sortByDist key xs)

/-- ChromaDB `collection.query(query_embeddings=[qemb], n_results=n)`
(memory.py 144-147): the `n` stored records nearest to `qemb` under the
collection's configured metric `dist`, ordered by ascending distance;
fewer are returned when the collection holds fewer than `n` records. -/
def chromaQuery (dist : Embedding → Embedding → ℚ) (c : ChromaCollection)
    (qemb : Embedding) (nResults : Nat) : List MemoryRecord :=
  (sortByDist (fun r => dist qemb r.embedding) c.records).take nResults

/-- The settings mapping of config.py (DEFAULT_SETTINGS keys, lines 40-45).
`log_level` is the numeric logging level (logging.INFO = 20). -/
structure Settings where
  log_level : Nat
  db_path : String
  embedding_model : String
  similarity_top_k : Nat
deriving Repr, DecidableEq

/-- config.py DEFAULT_SETTINGS (lines 40-45): log_level = logging.INFO,
db_path = DB_DIR, embedding_model = "text-embedding-3-small",
similarity_top_k = 3. -/
def DEFAULT_SETTINGS : Settings :=
  { log_level := 20
    db_path := "data/pippa_memory_db"
    embedding_model := "text-embedding-3-small"
    similarity_top_k := 3 }

/-- The dict returned by `PippaMemoryTool.remember` (memory.py 119-123). -/
structure RememberResult where
  status : String
  message : String
  id : String
deriving Repr, DecidableEq

/-- The dict returned by `PippaMemoryTool.delete_memory`
(memory.py 207-215). -/
structure DeleteResult where
  status : String
  message : String
deriving Repr, DecidableEq

/-- The Document class of memory.py 219-223: page_content plus metadata. -/
structure Document where
  page_content : String
  metadata : Metadata
deriving Repr, DecidableEq

/-- Conversion used by recall and list_memories (memory.py 153-156,
182-185): wrap a returned record into a Document. -/
def toDocument (r : MemoryRecord) : Document :=
  { page_content := r.document, metadata := r.metadata }

/-- `PippaMemoryTool.remember` (memory.py 91-123).  `uuid` is the value of
`str(uuid.uuid4())` drawn at line 101 and `timestamp` the value of
`datetime.datetime.now().isoformat()` at line 102, both supplied by the
environment.  There is no try/except: an exception from the embedding call
propagates to the caller (`Except.error`) and the collection is unchanged;
otherwise the record is added and a success dict is returned. -/
def remember (embed : EmbedProvider) (uuid timestamp text : String)
    (c : ChromaCollection) : Except String RememberResult × ChromaCollection :=
  match embed text with
  | .error e => (.error e, c)
  | .ok emb =>
      (.ok { status := "success", message := "Memory stored", id := uuid },
       chromaAdd c
         { id := uuid
           document := text
           embedding := emb
           metadata := { timestamp := timestamp, type := "memory", id := uuid } })

/-- `PippaMemoryTool.recall` (memory.py 125-162).  `limit = none` models the
Python default `limit=None`, replaced by `get_setting("similarity_top_k", 3)`.
The Lean name differs because `recall` is a reserved command name.  The whole body is wrapped in try/except returning `[]` and printing an
error line; the only fallible step is the embedding call, modelled through
`embed`.  Returns the documents together with the printed lines. -/
def recallMemories (embed : EmbedProvider) (dist : Embedding → Embedding → ℚ)
    (query : String) (limit : Option Nat) (settings : Settings)
    (c : ChromaCollection) : List Document × List String :=
  let k := limit.getD settings.similarity_top_k
  match embed query with
  | .error e => ([], ["Error recalling memories: " ++ e])
  | .ok qemb => ((chromaQuery dist c qemb k).map toDocument, [])

/-- `PippaMemoryTool.list_memories` (memory.py 164-191).  The Python default
is `limit=10`.  The body is wrapped in try/except returning `[]` and
printing an error line; `fault` models an exception raised by the
`collection.get` call. -/
def listMemories (fault : Option String) (limit : Nat)
    (c : ChromaCollection) : List Document × List String :=
  match fault with
  | some e => ([], ["Error listing memories: " ++ e])
  | none => ((chromaGet c limit).map toDocument, [])

/-- `PippaMemoryTool.delete_memory` (memory.py 193-215).  `fault` models an
exception raised by the `collection.delete` call (ChromaDB raises none for
an absent id, so a fault is a genuine persistence failure); on a fault the
error dict is returned and the collection is unchanged, otherwise the
matching record (if any) is removed and a success dict returned. -/
def deleteMemory (fault : Option String) (memory_id : String)
    (c : ChromaCollection) : DeleteResult × ChromaCollection :=
  match fault with
  | some e =>
      ({ status := "error", message := "Failed to delete memory: " ++ e }, c)
  | none =>
      ({ status := "success", message := "Memory " ++ memory_id ++ " deleted" },
       chromaDelete c [memory_id])

/-- A state-changing operation on the tool, used to reason about whole
call sequences (read operations do not change the collection and are
omitted). -/
inductive Op where
  | rememberOp (text : String)
  | deleteOp (memory_id : String)
deriving Repr, DecidableEq

/-- The state of a running tool together with its environment history:
the collection, how many uuid4 draws have happened, and the ids returned
by the successful remember calls so far (oldest first). -/
structure ToolState where
  collection : ChromaCollection
  uuidCount : Nat
  issued : List String
deriving Repr, DecidableEq

/-- The state of a freshly started tool. -/
def initialToolState : ToolState :=
  { collection := emptyCollection, uuidCount := 0, issued := [] }

/-- Execute one operation.  `uuids n` is the value of the `n`-th
`str(uuid.uuid4())` draw and `ts n` the timestamp taken in the same call
(memory.py 101-102); the draw happens before the embedding call, so the
counter advances even when the embedding call fails and nothing is
persisted. -/
def stepOp (embed : EmbedProvider) (uuids ts : Nat → String)
    (s : ToolState) : Op → ToolState
  | .rememberOp text =>
      match remember embed (uuids s.uuidCount) (ts s.uuidCount) text s.collection with
      | (.error _, c) => { s with collection := c, uuidCount := s.uuidCount + 1 }
      | (.ok r, c) =>
          { collection := c
            uuidCount := s.uuidCount + 1
            issued := s.issued ++ [r.id] }
  | .deleteOp i => { s with collection := (deleteMemory none i s.collection).2 }

/-- Run a sequence of operations from the initial state. -/
def runOps (embed : EmbedProvider) (uuids ts : Nat → String)
    (ops : List Op) : ToolState :=
  ops.foldl (stepOp embed uuids ts) initialToolState

end PippaMemory

namespace PippaMemory

/-- Inserting with `insertByDist` yields a permutation of consing. -/
theorem perm_insertByDist (key : α → ℚ) (x : α) (l : List α) :
    List.Perm (insertByDist key x l) (x :: l) := by
  induction l with
  | nil => simp [insertByDist]
  | cons y ys ih =>
      simp only [insertByDist]
      split
      · exact (ih.cons y).trans (List.Perm.swap x y ys)
      · exact List.Perm.refl _

/-- `sortByDist` permutes its input. -/
theorem perm_sortByDist (key : α → ℚ) (l : List α) :
    List.Perm (sortByDist key l) l := by
  induction l with
  | nil => simp [sortByDist]
  | cons x xs ih =>
      exact (perm_insertByDist key x (sortByDist key xs)).trans (ih.cons x)

/-- Membership in an `insertByDist` result. -/
theorem mem_insertByDist {key : α → ℚ} {x z : α} {l : List α} :
    z ∈ insertByDist key x l ↔ z = x ∨ z ∈ l := by
  rw [(perm_insertByDist key x l).mem_iff]
  simp

/-- `insertByDist` preserves sortedness by the key. -/
theorem sorted_insertByDist (key : α → ℚ) (x : α) {l : List α}
    (h : l.Pairwise (fun a b => key a ≤ key b)) :
    (insertByDist key x l).Pairwise (fun a b => key a ≤ key b) := by
  induction l with
  | nil => simp [insertByDist]
  | cons y ys ih =>
      rw [List.pairwise_cons] at h
      simp only [insertByDist]
      split
      · rename_i hlt
        rw [List.pairwise_cons]
        refine ⟨?_, ih h.2⟩
        intro z hz
        rcases mem_insertByDist.1 hz with hz | hz
        · exact hz ▸ le_of_lt hlt
        · exact h.1 z hz
      · rename_i hge
        rw [List.pairwise_cons]
        refine ⟨?_, List.pairwise_cons.2 h⟩
        intro z hz
        rw [List.mem_cons] at hz
        rcases hz with hz | hz
        · exact hz ▸ le_of_not_lt hge
        · exact le_trans (le_of_not_lt hge) (h.1 z hz)

/-- The output of `sortByDist` is sorted by ascending key. -/
theorem sorted_sortByDist (key : α → ℚ) (l : List α) :
    (sortByDist key l).Pairwise (fun a b => key a ≤ key b) := by
  induction l with
  | nil => simp [sortByDist]
  | cons x xs ih => exact sorted_insertByDist key x ih

/-- `sortByDist` preserves length. -/
theorem length_sortByDist (key : α → ℚ) (l : List α) :
    (sortByDist key l).length = l.length :=
  (perm_sortByDist key l).length_eq

end PippaMemory

namespace PippaMemory

/-- C1 counterexample: the claim says delete of an absent id returns a
failure-status result, but on the empty collection
`delete_memory "nonexistent-id"` returns status "success" (ChromaDB's
delete ignores absent ids and raises nothing, so the except branch that
produces the error dict is never taken). -/
theorem c1_delete_absent_success_counterexample :
    (deleteMemory none "nonexistent-id" emptyCollection).1.status = "success" ∧
    (deleteMemory none "nonexistent-id" emptyCollection).1.status ≠ "error" := by
  constructor
  · rfl
  · decide

/-- C1 amended: for every id absent from the store, delete_memory (absent
an underlying persistence fault) returns a success-status result with
message "Memory <id> deleted" and leaves the collection unchanged and does
not throw; an error-status result occurs exactly when the underlying
ChromaDB delete raises; in particular a second delete of the same id after
a successful delete again reports success, not failure. -/
theorem c1_delete_absent_amended :
    (∀ (c : ChromaCollection) (i : String),
      (∀ r ∈ c.records, r.id ≠ i) →
      deleteMemory none i c =
        ({ status := "success", message := "Memory " ++ i ++ " deleted" }, c)) ∧
    (∀ (fault : Option String) (i : String) (c : ChromaCollection),
      (deleteMemory fault i c).1.status = "error" ↔ ∃ e, fault = some e) ∧
    (∀ (c : ChromaCollection) (i : String),
      (deleteMemory none i (deleteMemory none i c).2).1.status = "success") := by
  refine ⟨?_, ?_, ?_⟩
  · intro c i h
    simp only [deleteMemory, chromaDelete]
    congr 1
    cases c with
    | mk records =>
        simp only [ChromaCollection.mk.injEq]
        rw [List.filter_eq_self]
        intro r hr
        simpa using h r hr
  · intro fault i c
    cases fault <;> simp [deleteMemory]
  · intro c i
    rfl

/-- C1 amended, witness at a concrete input: deleting "nonexistent-id"
from the empty collection succeeds and leaves it empty. -/
theorem c1_delete_absent_amended_witness :
    (∀ r ∈ emptyCollection.records, r.id ≠ "nonexistent-id") ∧
    deleteMemory none "nonexistent-id" emptyCollection =
      ({ status := "success",
         message := "Memory " ++ "nonexistent-id" ++ " deleted" },
       emptyCollection) :=
  ⟨by simp [emptyCollection],
   c1_delete_absent_amended.1 emptyCollection "nonexistent-id"
     (by simp [emptyCollection])⟩

/-- C2: if the embedding call inside remember raises, the whole store
operation fails, the error is surfaced to the caller (remember re-raises
rather than swallowing it), and the collection is unchanged — no record is
persisted. -/
theorem c2_remember_embed_failure_persists_nothing
    (embed : EmbedProvider) (u t text e : String) (c : ChromaCollection)
    (h : embed text = .error e) :
    remember embed u t text c = (.error e, c) := by
  simp [remember, h]

/-- C2 witness: with a provider that always raises "boom", remember on the
empty collection surfaces the error and leaves the collection empty. -/
theorem c2_remember_embed_failure_witness :
    ((fun _ => .error "boom" : EmbedProvider) "note" = .error "boom") ∧
    remember (fun _ => .error "boom") "u0" "t0" "note" emptyCollection =
      (.error "boom", emptyCollection) :=
  ⟨rfl,
   c2_remember_embed_failure_persists_nothing
     (fun _ => .error "boom") "u0" "t0" "note" "boom" emptyCollection rfl⟩

/-- C4: if the embedding call inside recall raises, recall returns the
empty list (the error is not propagated) and prints the underlying
condition ("Error recalling memories: <e>"); any failure inside
list_memories likewise yields the empty list plus the printed line
"Error listing memories: <e>". -/
theorem c4_read_paths_degrade_and_log :
    (∀ (embed : EmbedProvider) (dist : Embedding → Embedding → ℚ)
       (query : String) (limit : Option Nat) (s : Settings)
       (c : ChromaCollection) (e : String),
      embed query = .error e →
      recallMemories embed dist query limit s c =
        ([], ["Error recalling memories: " ++ e])) ∧
    (∀ (limit : Nat) (c : ChromaCollection) (e : String),
      listMemories (some e) limit c =
        ([], ["Error listing memories: " ++ e])) := by
  constructor
  · intro embed dist query limit s c e h
    simp [recallMemories, h]
  · intro limit c e
    rfl

/-- C4 witness: a provider that raises "down" makes recall on a concrete
collection return no documents and log the condition. -/
theorem c4_read_paths_degrade_witness :
    ((fun _ => .error "down" : EmbedProvider) "q" = .error "down") ∧
    recallMemories (fun _ => .error "down") (fun _ _ => 0) "q" none
        DEFAULT_SETTINGS emptyCollection =
      ([], ["Error recalling memories: " ++ "down"]) :=
  ⟨rfl,
   c4_read_paths_degrade_and_log.1 (fun _ => .error "down") (fun _ _ => 0)
     "q" none DEFAULT_SETTINGS emptyCollection "down" rfl⟩

/-- C8: on the empty store, recall (for every provider outcome, every
metric, every limit) and list_memories (for every fault outcome and every
limit) both return the empty sequence of documents rather than an error. -/
theorem c8_empty_store_reads_empty :
    (∀ (embed : EmbedProvider) (dist : Embedding → Embedding → ℚ)
       (query : String) (limit : Option Nat) (s : Settings),
      (recallMemories embed dist query limit s emptyCollection).1 = []) ∧
    (∀ (fault : Option String) (limit : Nat),
      (listMemories fault limit emptyCollection).1 = []) := by
  constructor
  · intro embed dist query limit s
    cases h : embed query <;>
      simp [recallMemories, h, chromaQuery, sortByDist, emptyCollection]
  · intro fault limit
    cases fault <;> simp [listMemories, chromaGet, emptyCollection]

/-- C9: when recall is called without an explicit limit, the number of
returned documents is bounded by the configured similarity_top_k setting,
and the default value of that setting is 3. -/
theorem c9_default_limit_bound :
    (∀ (embed : EmbedProvider) (dist : Embedding → Embedding → ℚ)
       (query : String) (s : Settings) (c : ChromaCollection),
      (recallMemories embed dist query none s c).1.length ≤
        s.similarity_top_k) ∧
    DEFAULT_SETTINGS.similarity_top_k = 3 := by
  constructor
  · intro embed dist query s c
    cases h : embed query with
    | error e => simp [recallMemories, h]
    | ok qemb =>
        simp only [recallMemories, h, Option.getD_none, List.length_map,
          chromaQuery]
        exact le_trans (List.length_take_le _ _) (le_refl _)
  · rfl

/-- C10: remember never returns an error-status dict: whenever it returns
a result at all, that result has status "success"; an embedding failure
surfaces as a raised exception, not as a returned status. -/
theorem c10_remember_result_always_success :
    (∀ (embed : EmbedProvider) (u t text : String) (c : ChromaCollection)
       (r : RememberResult) (c2 : ChromaCollection),
      remember embed u t text c = (.ok r, c2) → r.status = "success") ∧
    (∀ (embed : EmbedProvider) (u t text e : String) (c : ChromaCollection),
      embed text = .error e → (remember embed u t text c).1 = .error e) := by
  constructor
  · intro embed u t text c r c2 h
    cases hm : embed text with
    | error e => simp [remember, hm] at h
    | ok emb =>
        simp only [remember, hm, Prod.mk.injEq, Except.ok.injEq] at h
        rw [← h.1]
  · intro embed u t text e c h
    simp [remember, h]

/-- C10 witness: a successful remember on the empty collection returns the
concrete success dict. -/
theorem c10_remember_result_witness :
    remember (fun _ => .ok [1]) "u1" "t1" "note" emptyCollection =
      (.ok { status := "success", message := "Memory stored", id := "u1" },
       chromaAdd emptyCollection
         { id := "u1", document := "note", embedding := [1],
           metadata := { timestamp := "t1", type := "memory", id := "u1" } }) ∧
    ({ status := "success", message := "Memory stored", id := "u1" }
      : RememberResult).status = "success" :=
  ⟨rfl,
   c10_remember_result_always_success.1 (fun _ => .ok [1]) "u1" "t1" "note"
     emptyCollection
     { status := "success", message := "Memory stored", id := "u1" }
     (chromaAdd emptyCollection
       { id := "u1", document := "note", embedding := [1],
         metadata := { timestamp := "t1", type := "memory", id := "u1" } })
     rfl⟩

end PippaMemory

namespace PippaMemory

/-- C3: with an explicit limit `k`, recall returns exactly the ChromaDB
query results converted to documents, hence at most `k` of them, and the
underlying records are ordered by ascending distance to the query
embedding under the collection's metric (the source configures the metric
to cosine, memory.py 75-78; the theorem holds for every metric, hence for
cosine).  The model is a pure function, so identical inputs yield
identical result orders — ties included — which the last conjunct records. -/
theorem c3_recall_limit_and_order
    (embed : EmbedProvider) (dist : Embedding → Embedding → ℚ)
    (query : String) (k : Nat) (s : Settings) (c : ChromaCollection)
    (qemb : Embedding) (h : embed query = .ok qemb) :
    recallMemories embed dist query (some k) s c =
      ((chromaQuery dist c qemb k).map toDocument, []) ∧
    (recallMemories embed dist query (some k) s c).1.length ≤ k ∧
    (chromaQuery dist c qemb k).Pairwise
      (fun a b => dist qemb a.embedding ≤ dist qemb b.embedding) ∧
    recallMemories embed dist query (some k) s c =
      recallMemories embed dist query (some k) s c := by
  have heq : recallMemories embed dist query (some k) s c =
      ((chromaQuery dist c qemb k).map toDocument, []) := by
    simp [recallMemories, h]
  refine ⟨heq, ?_, ?_, rfl⟩
  · rw [heq]
    simp only [chromaQuery, List.length_map]
    exact List.length_take_le k (sortByDist (fun r => dist qemb r.embedding) c.records)
  · exact (sorted_sortByDist (fun r => dist qemb r.embedding) c.records).sublist
      (List.take_sublist k _)

/-- C3 witness: on a concrete three-record collection with a concrete
metric, recall with limit 2 returns at most 2 documents. -/
theorem c3_recall_limit_witness :
    ((fun _ => .ok [0] : EmbedProvider) "q" = .ok [0]) ∧
    (recallMemories (fun _ => .ok [0])
      (fun a b => ((a.zip b).map fun p => (p.1 - p.2) * (p.1 - p.2)).sum)
      "q" (some 2) DEFAULT_SETTINGS
      ⟨[{ id := "a", document := "alpha", embedding := [1],
          metadata := { timestamp := "t1", type := "memory", id := "a" } },
        { id := "b", document := "beta", embedding := [2],
          metadata := { timestamp := "t2", type := "memory", id := "b" } },
        { id := "c", document := "gamma", embedding := [5],
          metadata := { timestamp := "t3", type := "memory", id := "c" } }]⟩).1.length
      ≤ 2 :=
  ⟨rfl,
   (c3_recall_limit_and_order (fun _ => .ok [0])
     (fun a b => ((a.zip b).map fun p => (p.1 - p.2) * (p.1 - p.2)).sum)
     "q" 2 DEFAULT_SETTINGS
     ⟨[{ id := "a", document := "alpha", embedding := [1],
         metadata := { timestamp := "t1", type := "memory", id := "a" } },
       { id := "b", document := "beta", embedding := [2],
         metadata := { timestamp := "t2", type := "memory", id := "b" } },
       { id := "c", document := "gamma", embedding := [5],
         metadata := { timestamp := "t3", type := "memory", id := "c" } }]⟩
     [0] rfl).2.1⟩

/-- C7: remember (on success, with a fresh id) appends exactly one new
record, so the collection grows by one and every previously stored record
is kept unchanged, in place, text, embedding and metadata included; and
delete_memory removes exactly the records carrying the given id — a record
survives the deletion if and only if it was present before and its id
differs. -/
theorem c7_frame_properties :
    (∀ (embed : EmbedProvider) (u t text : String) (c : ChromaCollection)
       (emb : Embedding),
      embed text = .ok emb → u ∉ c.ids →
      (remember embed u t text c).2.records =
        c.records ++
          [{ id := u, document := text, embedding := emb,
             metadata := { timestamp := t, type := "memory", id := u } }] ∧
      (remember embed u t text c).2.records.length = c.records.length + 1) ∧
    (∀ (i : String) (c : ChromaCollection) (r : MemoryRecord),
      r ∈ (deleteMemory none i c).2.records ↔ r ∈ c.records ∧ r.id ≠ i) := by
  constructor
  · intro embed u t text c emb hemb hfresh
    have hrec : (remember embed u t text c).2.records =
        c.records ++
          [{ id := u, document := text, embedding := emb,
             metadata := { timestamp := t, type := "memory", id := u } }] := by
      simp [remember, hemb, chromaAdd, hfresh]
    refine ⟨hrec, ?_⟩
    rw [hrec]
    simp
  · intro i c r
    simp [deleteMemory, chromaDelete, List.mem_filter]

/-- C7 witness: a successful remember with a fresh id on the empty
collection yields exactly the one-record collection. -/
theorem c7_frame_witness :
    ((fun _ => .ok [1] : EmbedProvider) "note" = .ok [1]) ∧
    ("u1" ∉ emptyCollection.ids) ∧
    (remember (fun _ => .ok [1]) "u1" "t1" "note" emptyCollection).2.records =
      emptyCollection.records ++
        [{ id := "u1", document := "note", embedding := [1],
           metadata := { timestamp := "t1", type := "memory", id := "u1" } }] :=
  ⟨rfl, by simp [emptyCollection, ChromaCollection.ids],
   (c7_frame_properties.1 (fun _ => .ok [1]) "u1" "t1" "note" emptyCollection
     [1] rfl (by simp [emptyCollection, ChromaCollection.ids])).1⟩

/-- C5: round trip.  After a successful remember of `text` under a fresh
id, list_memories (with a limit at least the collection size, no fault)
returns a document whose page_content is exactly `text`; and recall (with
a successful query embedding and a limit at least the collection size)
also returns a document whose page_content is exactly `text`. -/
theorem c5_round_trip
    (embed : EmbedProvider) (dist : Embedding → Embedding → ℚ)
    (u t text query : String) (c : ChromaCollection)
    (emb qemb : Embedding) (k : Nat) (s : Settings)
    (hemb : embed text = .ok emb) (hfresh : u ∉ c.ids)
    (hq : embed query = .ok qemb)
    (hk : (remember embed u t text c).2.records.length ≤ k) :
    (∃ d ∈ (listMemories none k (remember embed u t text c).2).1,
       d.page_content = text) ∧
    (∃ d ∈ (recallMemories embed dist query (some k) s
        (remember embed u t text c).2).1,
       d.page_content = text) := by
  set nr : MemoryRecord :=
    { id := u, document := text, embedding := emb,
      metadata := { timestamp := t, type := "memory", id := u } } with hnr
  have hrec : (remember embed u t text c).2.records = c.records ++ [nr] := by
    simp [remember, hemb, chromaAdd, hfresh, hnr]
  have hmem : nr ∈ (remember embed u t text c).2.records := by
    rw [hrec]
    simp
  constructor
  · refine ⟨toDocument nr, ?_, rfl⟩
    simp only [listMemories, chromaGet]
    rw [List.take_of_length_le hk]
    exact List.mem_map_of_mem toDocument hmem
  · refine ⟨toDocument nr, ?_, rfl⟩
    have hq1 : recallMemories embed dist query (some k) s
        (remember embed u t text c).2 =
        ((chromaQuery dist (remember embed u t text c).2 qemb k).map toDocument,
         []) := by
      simp [recallMemories, hq]
    rw [hq1]
    have hlen : (sortByDist (fun r => dist qemb r.embedding)
        (remember embed u t text c).2.records).length ≤ k := by
      rw [length_sortByDist]
      exact hk
    have : chromaQuery dist (remember embed u t text c).2 qemb k =
        sortByDist (fun r => dist qemb r.embedding)
          (remember embed u t text c).2.records := by
      simp only [chromaQuery]
      exact List.take_of_length_le hlen
    rw [this]
    exact List.mem_map_of_mem toDocument
      ((perm_sortByDist (fun r => dist qemb r.embedding) _).mem_iff.2 hmem)

/-- C5 witness: storing "note" in the empty store and reading it back with
limit 1 returns a document with page_content "note", both via list and via
recall. -/
theorem c5_round_trip_witness :
    ((fun _ => .ok [1] : EmbedProvider) "note" = .ok [1]) ∧
    ("u1" ∉ emptyCollection.ids) ∧
    ((fun _ => .ok [1] : EmbedProvider) "q" = .ok [1]) ∧
    (remember (fun _ => .ok [1]) "u1" "t1" "note" emptyCollection).2.records.length ≤ 1 ∧
    ((∃ d ∈ (listMemories none 1
        (remember (fun _ => .ok [1]) "u1" "t1" "note" emptyCollection).2).1,
       d.page_content = "note") ∧
     (∃ d ∈ (recallMemories (fun _ => .ok [1]) (fun _ _ => 0) "q" (some 1)
         DEFAULT_SETTINGS
         (remember (fun _ => .ok [1]) "u1" "t1" "note" emptyCollection).2).1,
       d.page_content = "note")) :=
  ⟨rfl, by simp [emptyCollection, ChromaCollection.ids], rfl, by decide,
   c5_round_trip (fun _ => .ok [1]) (fun _ _ => 0) "u1" "t1" "note" "q"
     emptyCollection [1] [1] 1 DEFAULT_SETTINGS rfl
     (by simp [emptyCollection, ChromaCollection.ids]) rfl (by decide)⟩

end PippaMemory

namespace PippaMemory

/-- The invariant used for C6: the issued ids are pairwise distinct and
each of them is a uuid draw whose index lies below the draw counter. -/
def IssuedInv (uuids : Nat → String) (s : ToolState) : Prop :=
  s.issued.Nodup ∧ ∀ i ∈ s.issued, ∃ n < s.uuidCount, i = uuids n

/-- One step of the tool preserves the issued-ids invariant, provided the
uuid draws never collide. -/
theorem stepOp_preserves_issuedInv (embed : EmbedProvider)
    (uuids ts : Nat → String) (hinj : Function.Injective uuids)
    (s : ToolState) (op : Op) (h : IssuedInv uuids s) :
    IssuedInv uuids (stepOp embed uuids ts s op) := by
  obtain ⟨h1, h2⟩ := h
  cases op with
  | deleteOp i => exact ⟨h1, h2⟩
  | rememberOp text =>
      cases hm : embed text with
      | error e =>
          refine ⟨?_, ?_⟩ <;> simp only [stepOp, remember, hm]
          · exact h1
          · intro i hi
            obtain ⟨n, hn, hi⟩ := h2 i hi
            exact ⟨n, Nat.lt_succ_of_lt hn, hi⟩
      | ok emb =>
          have hnotmem : uuids s.uuidCount ∉ s.issued := by
            intro hmem
            obtain ⟨n, hn, heq⟩ := h2 _ hmem
            exact absurd (hinj heq) (Nat.ne_of_gt hn)
          refine ⟨?_, ?_⟩ <;> simp only [stepOp, remember, hm]
          · exact h1.append (List.nodup_singleton _)
              (List.disjoint_singleton.2 hnotmem)
          · intro i hi
            rw [List.mem_append, List.mem_singleton] at hi
            rcases hi with hi | hi
            · obtain ⟨n, hn, hi⟩ := h2 i hi
              exact ⟨n, Nat.lt_succ_of_lt hn, hi⟩
            · exact ⟨s.uuidCount, Nat.lt_succ_self _, hi⟩

/-- Running any operation sequence from a state satisfying the issued-ids
invariant lands in a state satisfying it. -/
theorem foldl_stepOp_issuedInv (embed : EmbedProvider)
    (uuids ts : Nat → String) (hinj : Function.Injective uuids)
    (ops : List Op) :
    ∀ s : ToolState, IssuedInv uuids s →
      IssuedInv uuids (ops.foldl (stepOp embed uuids ts) s) := by
  induction ops with
  | nil => exact fun s h => h
  | cons op rest ih =>
      intro s h
      exact ih _ (stepOp_preserves_issuedInv embed uuids ts hinj s op h)

/-- C6: provided the uuid4 draws never collide (`uuids` injective — the
practical guarantee uuid.uuid4 is relied upon for), the ids returned by
the successful store calls of any operation sequence, run from a fresh
store, are pairwise distinct: no id is ever issued twice, deleted ids
included (deletion does not return an id to the generator), and in
particular two successive stores of identical text receive distinct ids. -/
theorem c6_issued_ids_distinct (embed : EmbedProvider)
    (uuids ts : Nat → String) (hinj : Function.Injective uuids)
    (ops : List Op) :
    (runOps embed uuids ts ops).issued.Nodup :=
  (foldl_stepOp_issuedInv embed uuids ts hinj ops initialToolState
    ⟨List.nodup_nil, by simp [initialToolState]⟩).1

/-- C6 witness: with the injective draw sequence n ↦ "x"*n, storing the
same text twice (with a delete in between) issues pairwise distinct ids. -/
theorem c6_issued_ids_distinct_witness :
    Function.Injective (fun n => String.mk (List.replicate n 'x')) ∧
    (runOps (fun _ => .ok [1]) (fun n => String.mk (List.replicate n 'x'))
      (fun _ => "t")
      [Op.rememberOp "note", Op.deleteOp "", Op.rememberOp "note"]).issued.Nodup :=
  ⟨fun a b h => by simpa using congrArg (fun st => st.data.length) h,
   c6_issued_ids_distinct (fun _ => .ok [1])
     (fun n => String.mk (List.replicate n 'x')) (fun _ => "t")
     (fun a b h => by simpa using congrArg (fun st => st.data.length) h)
     [Op.rememberOp "note", Op.deleteOp "", Op.rememberOp "note"]⟩

end PippaMemory
